import Mathlib

/-!
Verification development for the Story-Character-Extractor repository
(`src/app.py`, `src/process_stories.py`, `src/vector_db.py`).

The pipeline code is embedded shallowly: the mutable object state of
`VectorDB` (the in-memory FAISS index `self.db` and the persisted file
`vector_store.faiss`) becomes an explicit state record that every operation
threads; the external collaborators (MistralAI embeddings, the FAISS
library's search, the RetrievalQA generation chain, and OS-level file
operations) become oracle fields of an environment record; Python
exceptions become `Except` values, and the `try/except` blocks of the
source become the corresponding `match` recoveries.
-/

namespace StoryExtractor

/-! ## JSON values and a model of Python's `json.loads`

`StoryProcessor.get_character_info` calls `json.loads` on the generation
provider's response (src/process_stories.py line 146).  `json.loads` is
Python standard-library code; it is modelled here by a recursive-descent
parser over the JSON fragment the claims exercise: null, booleans, integer
numerals, strings (with the single-character escapes), arrays and objects,
with arbitrary surrounding whitespace and a strict trailing-garbage check.
Floating-point literals, `\u` escapes and the non-standard
`Infinity`/`NaN` extensions are outside the modelled fragment; objects are
kept as field lists in source order. -/

inductive Json where
  | null : Json
  | bool : Bool → Json
  | num : Int → Json
  | str : String → Json
  | arr : List Json → Json
  | obj : List (String × Json) → Json
deriving Repr

/-- Whitespace skipping as in the JSON grammar (space, tab, newline, CR). -/
def skipWs : List Char → List Char
  | c :: rest =>
    if c = ' ' ∨ c = '\n' ∨ c = '\t' ∨ c = '\r' then skipWs rest else c :: rest
  | [] => []

/-- Body of a JSON string literal (opening quote already consumed),
accumulating characters in reverse. -/
def parseStrAux : List Char → List Char → Except Unit (String × List Char)
  | _, [] => .error ()
  | acc, '"' :: rest => .ok (String.mk acc.reverse, rest)
  | acc, '\\' :: c :: rest =>
    match c with
    | '"' => parseStrAux ('"' :: acc) rest
    | '\\' => parseStrAux ('\\' :: acc) rest
    | '/' => parseStrAux ('/' :: acc) rest
    | 'n' => parseStrAux ('\n' :: acc) rest
    | 't' => parseStrAux ('\t' :: acc) rest
    | 'r' => parseStrAux ('\r' :: acc) rest
    | 'b' => parseStrAux ('\x08' :: acc) rest
    | 'f' => parseStrAux ('\x0c' :: acc) rest
    | _ => .error ()
  | acc, c :: rest => parseStrAux (c :: acc) rest

/-- Longest digit run at the head of the input, plus the remainder. -/
def parseDigits : List Char → List Char × List Char
  | c :: rest =>
    if c.isDigit then
      let (ds, r) := parseDigits rest
      (c :: ds, r)
    else ([], c :: rest)
  | [] => ([], [])

/-- Numeric value of a digit run. -/
def digitsToNat (ds : List Char) : Nat :=
  ds.foldl (fun acc c => acc * 10 + (c.toNat - 48)) 0

/-- Parsing mode: a single value, the items of an array after `[`, or the
members of an object after an opening brace (with the accumulated items). -/
inductive PMode where
  | val : PMode
  | arrItems : List Json → PMode
  | objItems : List (String × Json) → PMode

/-- Fuel-indexed recursive-descent JSON parser.  All recursive calls
decrease the fuel, so the definition is structural and evaluates inside the
kernel. -/
def parseCore : Nat → PMode → List Char → Except Unit (Json × List Char)
  | 0, _, _ => .error ()
  | Nat.succ fuel, .val, input =>
    match skipWs input with
    | 'n' :: 'u' :: 'l' :: 'l' :: rest => .ok (.null, rest)
    | 't' :: 'r' :: 'u' :: 'e' :: rest => .ok (.bool true, rest)
    | 'f' :: 'a' :: 'l' :: 's' :: 'e' :: rest => .ok (.bool false, rest)
    | '"' :: rest =>
      match parseStrAux [] rest with
      | .ok (s, r) => .ok (.str s, r)
      | .error _ => .error ()
    | '[' :: rest =>
      (match skipWs rest with
       | ']' :: r => .ok (.arr [], r)
       | other => parseCore fuel (.arrItems []) other)
    | '{' :: rest =>
      (match skipWs rest with
       | '}' :: r => .ok (.obj [], r)
       | other => parseCore fuel (.objItems []) other)
    | '-' :: rest =>
      let (ds, r) := parseDigits rest
      if ds.isEmpty then .error () else .ok (.num (-(digitsToNat ds : Int)), r)
    | c :: rest =>
      if c.isDigit then
        let (ds, r) := parseDigits (c :: rest)
        .ok (.num (digitsToNat ds), r)
      else .error ()
    | [] => .error ()
  | Nat.succ fuel, .arrItems acc, input =>
    match parseCore fuel .val input with
    | .error _ => .error ()
    | .ok (v, rest) =>
      match skipWs rest with
      | ',' :: r => parseCore fuel (.arrItems (v :: acc)) r
      | ']' :: r => .ok (.arr (v :: acc).reverse, r)
      | _ => .error ()
  | Nat.succ fuel, .objItems acc, input =>
    match skipWs input with
    | '"' :: rest =>
      match parseStrAux [] rest with
      | .error _ => .error ()
      | .ok (key, r1) =>
        match skipWs r1 with
        | ':' :: r2 =>
          (match parseCore fuel .val r2 with
           | .error _ => .error ()
           | .ok (v, r3) =>
             match skipWs r3 with
             | ',' :: r4 => parseCore fuel (.objItems ((key, v) :: acc)) r4
             | '}' :: r4 => .ok (.obj ((key, v) :: acc).reverse, r4)
             | _ => .error ())
        | _ => .error ()
    | _ => .error ()

/-- Model of `json.loads`: parse one JSON value, then require only
whitespace to remain; any failure is the `json.JSONDecodeError` case. -/
def jsonLoads (s : String) : Except Unit Json :=
  match parseCore (2 * s.length + 4) .val s.data with
  | .ok (v, rest) => if (skipWs rest).isEmpty then .ok v else .error ()
  | .error _ => .error ()

/-- Whether a JSON value is an object, i.e. what `json.loads` returns as a
Python `dict`. -/
def isObj : Json → Bool
  | .obj _ => true
  | _ => false

/-- Whether a JSON value is a string. -/
def isStringJson : Json → Bool
  | .str _ => true
  | _ => false

/-! ## Filenames and story titles

`StoryProcessor.compute_embeddings` derives a document title with
`file.name.replace(".txt", "")` (src/process_stories.py line 78).
Python's `str.replace` substitutes every non-overlapping occurrence of the
pattern, scanning left to right; `stripTxtAll` is that operation
specialised to the pattern `".txt"` and the empty replacement. -/

/-- The pattern `".txt"` as a character list. -/
def txtPat : List Char := ['.', 't', 'x', 't']

/-- Whether a character list starts with `".txt"`. -/
def startsWithTxt : List Char → Bool
  | c1 :: c2 :: c3 :: c4 :: _ => c1 == '.' && c2 == 't' && c3 == 'x' && c4 == 't'
  | _ => false

/-- Model of `name.replace(".txt", "")`: remove every non-overlapping
occurrence of `".txt"`, scanning left to right. -/
def stripTxtAll : List Char → List Char
  | [] => []
  | c :: rest =>
    if startsWithTxt (c :: rest) then
      match rest with
      | _ :: _ :: _ :: rest3 => stripTxtAll rest3
      | _ => []
    else c :: stripTxtAll rest

/-- Whether `".txt"` occurs anywhere in a character list. -/
def containsTxt : List Char → Bool
  | [] => false
  | c :: rest => startsWithTxt (c :: rest) || containsTxt rest

/-- Spec-side definition for claim C9, following the spec's words: the
filename with only its trailing `".txt"` extension removed and the rest of
the name unchanged. -/
def stripTrailingTxt (l : List Char) : List Char :=
  if 4 ≤ l.length ∧ l.drop (l.length - 4) = txtPat then l.take (l.length - 4) else l

/-! ## Data model

A `Doc` models a langchain `Document`: `page_content` plus the optional
`"title"` metadata entry.  An `Entry` models one record of the FAISS store
(chunk plus its embedding vector); the in-memory index (`self.db`) and the
persisted file (`vector_store.faiss`) are each an optional list of
entries. -/

/-- A langchain `Document`: `page_content` and the optional `"title"`
metadata. -/
structure Doc where
  text : String
  title : Option String
deriving Repr, DecidableEq

/-- An embedding vector produced by the embedding provider. -/
abbrev Vec := List Int

/-- One indexed entry: a document chunk together with its embedding. -/
structure Entry where
  doc : Doc
  vec : Vec
deriving Repr, DecidableEq

/-- The FAISS index contents: the ordered indexed entries. -/
abbrev Index := List Entry

/-- The mutable state of a `VectorDB` object: the in-memory index
(`self.db`, `None` until created or loaded) and the contents of the
persisted file at `self.db_path` (`none` when no file exists on disk). -/
structure DBState where
  db : Option Index
  file : Option Index
deriving Repr, DecidableEq

/-- Input to `VectorDB.create_vector_db`: Python's
`List[Union[str, Document]]`. -/
inductive InputDoc where
  | rawText : String → InputDoc
  | document : Doc → InputDoc
deriving Repr, DecidableEq

/-- An uploaded file as seen by `compute_embeddings`: its `name` and the
outcome of `file.read().decode("utf-8")` (`error` is a decode failure). -/
structure UFile where
  name : String
  content : Except Unit String

/-- The external collaborators, as oracles:
`embed` is the MistralAI embedding call for one text (failure = provider
exception); `saveOk`, `loadOk`, `removeOk` are the outcomes of
`FAISS.save_local`, `FAISS.load_local` deserialization and `os.remove`;
`search` is FAISS's similarity ranking over a loaded index; `run` is the
whole `RetrievalQA` chain invocation (retrieval, prompting and the LLM
call), returning the generation provider's text or an exception
message. -/
structure Env where
  embed : String → Except String Vec
  saveOk : Bool
  loadOk : Bool
  removeOk : Bool
  search : Index → String → Nat → Except String (List Doc)
  run : String → Except String String

/-! ## `src/vector_db.py` -/

/-- `VectorDB._ensure_documents` (lines 22-35): wrap raw strings as
`Document`s (with no metadata), keep `Document`s as they are. -/
def ensureDocuments (documents : List InputDoc) : List Doc :=
  documents.map fun
    | .rawText s => { text := s, title := none }
    | .document d => d

/-- `FAISS.from_documents` as invoked on line 52: one embedding per
document via the provider; the first provider failure raises out of the
call, so no index value is produced at all. -/
def faissFromDocuments (embed : String → Except String Vec) : List Doc → Except String Index
  | [] => .ok []
  | d :: rest =>
    match embed d.text with
    | .error e => .error e
    | .ok v =>
      match faissFromDocuments embed rest with
      | .error e => .error e
      | .ok idx => .ok ({ doc := d, vec := v } :: idx)

/-- `VectorDB.save_vector_db` (lines 58-74): raise (caught, `False`) when
there is no in-memory index; otherwise `save_local`, which on success
replaces the persisted file and on failure leaves state unchanged. -/
def saveVectorDb (env : Env) (s : DBState) : Bool × DBState :=
  match s.db with
  | none => (false, s)
  | some idx => if env.saveOk then (true, { s with file := some idx }) else (false, s)

/-- `VectorDB.create_vector_db` (lines 37-56): raise (caught, `False`) on
an empty document list; otherwise build the FAISS index from the documents
(a provider failure raises before the assignment to `self.db`, so the
prior state is kept), assign it to `self.db` and return
`save_vector_db()`. -/
def createVectorDb (env : Env) (s : DBState) (documents : List InputDoc) : Bool × DBState :=
  match documents with
  | [] => (false, s)
  | _ :: _ =>
    match faissFromDocuments env.embed (ensureDocuments documents) with
    | .error _ => (false, s)
    | .ok idx => saveVectorDb env { s with db := some idx }

/-- `VectorDB.load_vector_db` (lines 76-96): `False` when no file exists
at `db_path`; otherwise `load_local`, which on success replaces the
in-memory index with the persisted one and on failure (caught) leaves
state unchanged. -/
def loadVectorDb (env : Env) (s : DBState) : Bool × DBState :=
  match s.file with
  | none => (false, s)
  | some stored => if env.loadOk then (true, { s with db := some stored }) else (false, s)

/-- Failure modes of `similarity_search`: the explicit
`ValueError("Vector database not initialized. ...")` guard, or an
exception escaping the underlying FAISS/provider call. -/
inductive SearchErr where
  | notInitialized : SearchErr
  | providerFailure : String → SearchErr
deriving Repr, DecidableEq

/-- `VectorDB.similarity_search` (lines 98-115): raise the
not-initialized `ValueError` when `self.db is None`, otherwise delegate to
the FAISS index (whose own failures propagate to the caller). -/
def similaritySearch (env : Env) (s : DBState) (query : String) (k : Nat) :
    Except SearchErr (List Doc) :=
  match s.db with
  | none => .error .notInitialized
  | some idx =>
    match env.search idx query k with
    | .ok docs => .ok docs
    | .error m => .error (.providerFailure m)

/-- `VectorDB.clear_vector_db` (lines 117-131): when the persisted file
exists, `os.remove` it — if the removal raises, the exception is caught
and `False` is returned with `self.db` untouched; otherwise set
`self.db = None` and return `True`. -/
def clearVectorDb (env : Env) (s : DBState) : Bool × DBState :=
  match s.file with
  | none => (true, { s with db := none })
  | some _ =>
    if env.removeOk then (true, { db := none, file := none })
    else (false, s)

/-! ## The Chunker

`compute_embeddings` (src/process_stories.py lines 91-96) delegates
chunking to langchain's `CharacterTextSplitter`, an external library whose
code is not part of this repository's sources.  The splitter is therefore
modelled from the spec. -/

/-- Split a character list on a separator character, as Python's
`text.split(sep)` (so the empty text yields one empty unit). -/
def splitOnSep (sep : Char) : List Char → List (List Char)
  | [] => [[]]
  | c :: rest =>
    let r := splitOnSep sep rest
    if c = sep then [] :: r
    else
      match r with
      | h :: t => (c :: h) :: t
      | [] => [[c]]

/-- The separator-delimited units of a document's text. -/
def textUnits (sep : Char) (text : String) : List String :=
  (splitOnSep sep text.data).map String.mk

/-- The trailing `n` characters of a string (all of it when shorter). -/
def strTakeRight (n : Nat) (s : String) : String :=
  String.mk (s.data.drop (s.data.length - n))

/-- Modelled from the spec: the Chunker's greedy packing loop
(spec section 4.1) — the code delegates this to langchain's
`CharacterTextSplitter`, which is an external dependency missing from the
repository's sources.  Consecutive units are packed into the current chunk
`cur` while adding the next unit (with the joining separator) stays within
`chunk_size`; when a chunk is closed, the trailing `chunk_overlap`
characters are carried forward as the start of the next chunk; a unit
longer than `chunk_size` alone becomes its own oversized chunk, never
truncated. -/
def chunkUnits (chunkSize overlap : Nat) (sep : String) : List String → String → List String
  | [], cur => if cur = "" then [] else [cur]
  | u :: rest, cur =>
    if chunkSize < u.length then
      (if cur = "" then [] else [cur]) ++
        u :: chunkUnits chunkSize overlap sep rest (strTakeRight overlap u)
    else if cur = "" then
      chunkUnits chunkSize overlap sep rest u
    else if cur.length + sep.length + u.length ≤ chunkSize then
      chunkUnits chunkSize overlap sep rest (cur ++ sep ++ u)
    else
      let carry := strTakeRight overlap cur
      if carry.length + sep.length + u.length ≤ chunkSize then
        cur :: chunkUnits chunkSize overlap sep rest (carry ++ sep ++ u)
      else
        cur :: chunkUnits chunkSize overlap sep rest u

/-- Modelled from the spec: split one text into chunks (spec section
4.1). -/
def splitText (chunkSize overlap : Nat) (sep : Char) (text : String) : List String :=
  chunkUnits chunkSize overlap (String.mk [sep]) (textUnits sep text) ""

/-- Modelled from the spec: `CharacterTextSplitter.split_documents` —
chunk every document in order, each chunk inheriting its parent document's
metadata. -/
def splitDocuments (chunkSize overlap : Nat) (sep : Char) (docs : List Doc) : List Doc :=
  docs.flatMap fun d => (splitText chunkSize overlap sep d.text).map fun t =>
    { text := t, title := d.title }

/-! ## `src/process_stories.py` -/

/-- The structured error result `{"error": msg}` that
`get_character_info` returns on failure. -/
def mkErrObj (msg : String) : Json := .obj [("error", .str msg)]

/-- Lines 130-149 of `get_character_info`: invoke the `RetrievalQA`
chain, then `json.loads` the response — a `JSONDecodeError` is converted
to the parse-failure marker, while any other valid JSON value is returned
as is; a chain exception propagates to the enclosing handler. -/
def runAndParse (env : Env) (s : DBState) (name : String) : Json × DBState :=
  match env.run name with
  | .error e => (mkErrObj ("Error getting character information: " ++ e), s)
  | .ok response =>
    match jsonLoads response with
    | .ok v => (v, s)
    | .error _ => (mkErrObj "Failed to parse character information", s)

/-- `StoryProcessor.get_character_info` (lines 109-152): when no index is
in memory, attempt `load_vector_db` and raise
`ValueError("Failed to load vector database")` on failure; every
exception is caught by the outer handler and converted to an
`{"error": ...}` result. -/
def getCharacterInfo (env : Env) (s : DBState) (name : String) : Json × DBState :=
  match s.db with
  | some _ => runAndParse env s name
  | none =>
    match loadVectorDb env s with
    | (true, s1) => runAndParse env s1 name
    | (false, s1) =>
      (mkErrObj "Error getting character information: Failed to load vector database", s1)

/-- Lines 75-85 of `compute_embeddings`: a file whose bytes decode as
UTF-8 becomes a `Document` whose `"title"` metadata is
`file.name.replace(".txt", "")`; a decode failure is logged and the file
skipped. -/
def fileToDoc (f : UFile) : Option Doc :=
  match f.content with
  | .ok text => some { text := text, title := some (String.mk (stripTxtAll f.name.data)) }
  | .error _ => none

/-- The documents surviving the per-file decode step. -/
def docsOfFiles (files : List UFile) : List Doc :=
  files.filterMap fileToDoc

/-- Lines 87-104 of `compute_embeddings`: raise (caught, error message)
when no document survived decoding; otherwise chunk with
`CharacterTextSplitter(chunk_size=1000, chunk_overlap=200,
separator="\n")` and report the outcome of `create_vector_db`. -/
def buildFromDocs (env : Env) (s : DBState) (docs : List Doc) : String × DBState :=
  match docs with
  | [] => ("Error computing embeddings: No valid documents found in provided files", s)
  | _ :: _ =>
    let texts := splitDocuments 1000 200 '\n' docs
    match createVectorDb env s (texts.map InputDoc.document) with
    | (true, s1) => ("Embeddings computed and stored successfully", s1)
    | (false, s1) => ("Error storing embeddings", s1)

/-- `StoryProcessor.compute_embeddings` (lines 57-107): raise (caught,
error message) on an empty file list, otherwise decode, chunk and
build. -/
def computeEmbeddings (env : Env) (s : DBState) (files : List UFile) : String × DBState :=
  match files with
  | [] => ("Error computing embeddings: No files provided", s)
  | _ :: _ => buildFromDocs env s (docsOfFiles files)

/-- `StoryProcessor.clean_up` (lines 154-161): delegate to
`clear_vector_db`. -/
def cleanUp (env : Env) (s : DBState) : Bool × DBState :=
  clearVectorDb env s

/-! ## Spec-side definitions for the Character Info Result shape

These definitions follow the spec's words (data-model section: "{ name,
storyTitle, summary, characterType ∈ {protagonist, antagonist,
supporting}, relations: ordered sequence of {name, relation} } — OR an
error marker"); they exist to be compared with what the code actually
returns. -/

/-- Spec-side: an admissible `characterType` value. -/
def isCharacterType : Json → Bool
  | .str s => s == "protagonist" || s == "antagonist" || s == "supporting"
  | _ => false

/-- Spec-side: one element of `relations` — an object with exactly the
fields `name` and `relation`, both strings. -/
def isRelationObj : Json → Bool
  | .obj [(k1, v1), (k2, v2)] =>
    ((k1 == "name" && k2 == "relation") || (k1 == "relation" && k2 == "name")) &&
      isStringJson v1 && isStringJson v2
  | _ => false

/-- Spec-side: the Character Info Result shape — an object with exactly
the five fields `name`, `storyTitle`, `summary`, `characterType`,
`relations`, each well-typed. -/
def isCharacterInfoShape : Json → Bool
  | .obj fields =>
    (fields.map Prod.fst).isPerm ["name", "storyTitle", "summary", "relations",
      "characterType"] &&
    (match fields.lookup "name" with | some v => isStringJson v | none => false) &&
    (match fields.lookup "storyTitle" with | some v => isStringJson v | none => false) &&
    (match fields.lookup "summary" with | some v => isStringJson v | none => false) &&
    (match fields.lookup "characterType" with | some v => isCharacterType v | none => false) &&
    (match fields.lookup "relations" with | some (.arr rs) => rs.all isRelationObj | _ => false)
  | _ => false

/-- Spec-side: an error-marker result — an object carrying an `error`
field, as in `{"error": "Character not found in the stories"}`. -/
def isErrorMarker : Json → Bool
  | .obj fields => (fields.lookup "error").isSome
  | _ => false

/-! ## Helper lemmas -/

theorem strTakeRight_length_le (n : Nat) (s : String) : (strTakeRight n s).length ≤ n := by
  simp only [strTakeRight, String.length, List.length_drop]
  omega

/-- Greedy packing invariant of the modelled Chunker: starting from a
current chunk within the size bound, every emitted chunk is within the
bound except a chunk that is itself one of the input units and exceeds the
bound. -/
theorem chunkUnits_bound (cs ov : Nat) (sep : String) (hov : ov ≤ cs)
    (units : List String) :
    ∀ cur : String, cur.length ≤ cs →
      ∀ c ∈ chunkUnits cs ov sep units cur,
        c.length ≤ cs ∨ (c ∈ units ∧ cs < c.length) := by
  induction units with
  | nil =>
    intro cur hcur c hc
    by_cases h : cur = ""
    · simp [chunkUnits, h] at hc
    · simp only [chunkUnits, if_neg h, List.mem_singleton] at hc
      exact Or.inl (hc ▸ hcur)
  | cons u rest ih =>
    intro cur hcur c hc
    simp only [chunkUnits] at hc
    by_cases hbig : cs < u.length
    · rw [if_pos hbig] at hc
      rcases List.mem_append.mp hc with h1 | h2
      · by_cases hce : cur = ""
        · simp [hce] at h1
        · simp only [if_neg hce, List.mem_singleton] at h1
          exact Or.inl (h1 ▸ hcur)
      · rcases List.mem_cons.mp h2 with h3 | h4
        · exact Or.inr ⟨h3 ▸ List.mem_cons_self u rest, h3 ▸ hbig⟩
        · rcases ih (strTakeRight ov u) (le_trans (strTakeRight_length_le ov u) hov) c h4 with
            h | ⟨hm, hl⟩
          · exact Or.inl h
          · exact Or.inr ⟨List.mem_cons_of_mem u hm, hl⟩
    · rw [if_neg hbig] at hc
      by_cases hce : cur = ""
      · rw [if_pos hce] at hc
        rcases ih u (le_of_not_lt hbig) c hc with h | ⟨hm, hl⟩
        · exact Or.inl h
        · exact Or.inr ⟨List.mem_cons_of_mem u hm, hl⟩
      · rw [if_neg hce] at hc
        by_cases hfit : cur.length + sep.length + u.length ≤ cs
        · rw [if_pos hfit] at hc
          have hlen : (cur ++ sep ++ u).length ≤ cs := by
            simp only [String.length_append]
            exact hfit
          rcases ih (cur ++ sep ++ u) hlen c hc with h | ⟨hm, hl⟩
          · exact Or.inl h
          · exact Or.inr ⟨List.mem_cons_of_mem u hm, hl⟩
        · rw [if_neg hfit] at hc
          by_cases hfit2 : (strTakeRight ov cur).length + sep.length + u.length ≤ cs
          · rw [if_pos hfit2] at hc
            rcases List.mem_cons.mp hc with h3 | h4
            · exact Or.inl (h3 ▸ hcur)
            · have hlen : (strTakeRight ov cur ++ sep ++ u).length ≤ cs := by
                simp only [String.length_append]
                exact hfit2
              rcases ih (strTakeRight ov cur ++ sep ++ u) hlen c h4 with h | ⟨hm, hl⟩
              · exact Or.inl h
              · exact Or.inr ⟨List.mem_cons_of_mem u hm, hl⟩
          · rw [if_neg hfit2] at hc
            rcases List.mem_cons.mp hc with h3 | h4
            · exact Or.inl (h3 ▸ hcur)
            · rcases ih u (le_of_not_lt hbig) c h4 with h | ⟨hm, hl⟩
              · exact Or.inl h
              · exact Or.inr ⟨List.mem_cons_of_mem u hm, hl⟩

/-- A list not starting with `".txt"` still does not start with `".txt"`
after `".txt"` is appended: the pattern has no self-overlap, so no
occurrence can straddle the boundary. -/
theorem startsWithTxt_append (c : Char) (rest : List Char)
    (h : startsWithTxt (c :: rest) = false) :
    startsWithTxt (c :: (rest ++ txtPat)) = false := by
  have hdt : (('.' : Char) == 't') = false := rfl
  have hdx : (('.' : Char) == 'x') = false := rfl
  match rest with
  | [] => simp [startsWithTxt, txtPat, hdt]
  | [c2] => simp [startsWithTxt, txtPat, hdx]
  | [c2, c3] => simp [startsWithTxt, txtPat, hdt]
  | c2 :: c3 :: c4 :: rest2 =>
    simp only [startsWithTxt, List.cons_append] at h ⊢
    exact h

/-- Unfolding of `stripTxtAll` at a position where the pattern does not
match. -/
theorem stripTxtAll_cons_false (c : Char) (rest : List Char)
    (h : startsWithTxt (c :: rest) = false) :
    stripTxtAll (c :: rest) = c :: stripTxtAll rest := by
  match rest with
  | [] => rfl
  | [c2] => rfl
  | [c2, c3] => rfl
  | c2 :: c3 :: c4 :: rest3 =>
    simp only [stripTxtAll, h]
    simp

/-- Removing every `".txt"` occurrence from `base ++ ".txt"` yields
`base`, provided `".txt"` does not occur inside `base`. -/
theorem stripTxtAll_append_txtPat (base : List Char) (h : containsTxt base = false) :
    stripTxtAll (base ++ txtPat) = base := by
  induction base with
  | nil => rfl
  | cons c rest ih =>
    simp only [containsTxt, Bool.or_eq_false_iff] at h
    have hsw2 : startsWithTxt (c :: (rest ++ txtPat)) = false :=
      startsWithTxt_append c rest h.1
    calc stripTxtAll ((c :: rest) ++ txtPat)
        = stripTxtAll (c :: (rest ++ txtPat)) := by rw [List.cons_append]
      _ = c :: stripTxtAll (rest ++ txtPat) := stripTxtAll_cons_false c (rest ++ txtPat) hsw2
      _ = c :: rest := by rw [ih h.2]

/-- A successful `FAISS.from_documents` produces one entry per input
document, in order, each carrying a successful embedding of its own
text. -/
theorem faissFromDocuments_ok (embed : String → Except String Vec) :
    ∀ docs idx, faissFromDocuments embed docs = .ok idx →
      idx.map Entry.doc = docs ∧ ∀ e ∈ idx, embed e.doc.text = .ok e.vec := by
  intro docs
  induction docs with
  | nil =>
    intro idx h
    simp only [faissFromDocuments] at h
    cases h
    simp
  | cons d rest ih =>
    intro idx h
    simp only [faissFromDocuments] at h
    cases he : embed d.text with
    | error e => rw [he] at h; cases h
    | ok v =>
      rw [he] at h
      cases hr : faissFromDocuments embed rest with
      | error e => rw [hr] at h; cases h
      | ok idx2 =>
        rw [hr] at h
        cases h
        obtain ⟨h1, h2⟩ := ih idx2 hr
        refine ⟨by simp [h1], ?_⟩
        intro e he2
        rcases List.mem_cons.mp he2 with h3 | h4
        · subst h3; exact he
        · exact h2 e h4

/-! ## Concrete environments and states for witnesses and
counterexamples -/

/-- A benign environment: every external collaborator succeeds; the
generation provider returns the empty string. -/
def envBase : Env where
  embed := fun _ => .ok [1]
  saveOk := true
  loadOk := true
  removeOk := true
  search := fun _ _ _ => .ok []
  run := fun _ => .ok ""

/-- Environment whose generation provider answers with the JSON text
`42`. -/
def envNum : Env := { envBase with run := fun _ => Except.ok "42" }

/-- Environment whose generation provider answers with a JSON object
having the single field `x`. -/
def envObjX : Env := { envBase with run := fun _ => Except.ok "\x7b\"x\":1\x7d" }

/-- Environment whose generation provider answers with non-JSON text. -/
def envNotJson : Env := { envBase with run := fun _ => Except.ok "not json" }

/-- Environment whose generation provider answers with a JSON array. -/
def envArr : Env := { envBase with run := fun _ => Except.ok "[3]" }

/-- Environment in which `os.remove` fails. -/
def envNoRemove : Env := { envBase with removeOk := false }

/-- Environment in which `FAISS.save_local` fails. -/
def envNoSave : Env := { envBase with saveOk := false }

/-- A state with an (empty) in-memory index and no persisted file. -/
def sLoaded : DBState := { db := some [], file := none }

/-- A sample indexed entry. -/
def entryW : Entry := { doc := { text := "t", title := none }, vec := [1] }

/-- A sample document. -/
def aliceDoc : Doc := { text := "Alice", title := none }

/-- The entry the benign environment builds for `aliceDoc`. -/
def aliceEntry : Entry := { doc := aliceDoc, vec := [1] }

/-! ## Claims -/

/-- C1 (counterexample): with the generation provider returning the valid
JSON text `42`, `get_character_info` returns the parsed JSON number `42`
unchanged — not a dict — refuting "returns a structured result (a dict)"
as a property holding for every behaviour of the generation provider. -/
theorem c1_counterexample :
    (getCharacterInfo envNum sLoaded "Alice").1 = Json.num 42 ∧
    isObj (Json.num 42) = false :=
  ⟨rfl, rfl⟩

/-- C1 (amended): for every character name and every behaviour of the
generation provider, `get_character_info` returns a value and never
raises: the result is either an `{"error": ...}` marker (covering the
load failure, any component-level exception, and the
"Failed to parse character information" case) or exactly the JSON value
parsed from the provider's output — which is a dict whenever that JSON is
an object but is returned as-is otherwise. -/
theorem c1_error_marker_or_parsed_json (env : Env) (s : DBState) (name : String) :
    ((∃ m, (getCharacterInfo env s name).1 = mkErrObj m) ∨
      ∃ r, env.run name = .ok r ∧ jsonLoads r = .ok (getCharacterInfo env s name).1) ∧
    (∀ r, env.run name = .ok r → jsonLoads r = .error () → s.db ≠ none →
      (getCharacterInfo env s name).1 = mkErrObj "Failed to parse character information") := by
  have hrun : ∀ s1 : DBState,
      ((∃ m, (runAndParse env s1 name).1 = mkErrObj m) ∨
        ∃ r, env.run name = .ok r ∧ jsonLoads r = .ok (runAndParse env s1 name).1) := by
    intro s1
    cases hr : env.run name with
    | error e =>
      exact Or.inl ⟨"Error getting character information: " ++ e, by simp [runAndParse, hr]⟩
    | ok r =>
      cases hj : jsonLoads r with
      | error u =>
        exact Or.inl ⟨"Failed to parse character information", by simp [runAndParse, hr, hj]⟩
      | ok v => exact Or.inr ⟨r, rfl, by simp [runAndParse, hr, hj]⟩
  constructor
  · cases hdb : s.db with
    | some idx => simpa only [getCharacterInfo, hdb] using hrun s
    | none =>
      cases hl : loadVectorDb env s with
      | mk b s1 =>
        cases b with
        | true => simpa only [getCharacterInfo, hdb, hl] using hrun s1
        | false =>
          exact Or.inl ⟨"Error getting character information: Failed to load vector database",
            by simp only [getCharacterInfo, hdb, hl]⟩
  · intro r hr hj hdb
    cases hdbv : s.db with
    | none => exact absurd hdbv hdb
    | some idx => simp [getCharacterInfo, hdbv, runAndParse, hr, hj]

/-- C1 (witness): the amended theorem applied to a provider that answers
with non-JSON text. -/
theorem c1_witness :
    (getCharacterInfo envNotJson sLoaded "Alice").1 =
      mkErrObj "Failed to parse character information" :=
  (c1_error_marker_or_parsed_json envNotJson sLoaded "Alice").2 "not json" rfl rfl
    (by simp [sLoaded])

/-- C2 (counterexample): with the generation provider returning the valid
JSON object text with single field `x`, `get_character_info` returns that
object as-is even though it neither has the Character Info Result shape
nor is an error marker — refuting "output not matching the shape is
rejected as a parse error". -/
theorem c2_counterexample :
    (getCharacterInfo envObjX sLoaded "Alice").1 = Json.obj [("x", Json.num 1)] ∧
    isCharacterInfoShape (Json.obj [("x", Json.num 1)]) = false ∧
    isErrorMarker (Json.obj [("x", Json.num 1)]) = false :=
  ⟨rfl, rfl, rfl⟩

/-- C2 (amended): `get_character_info` parses the provider's returned
text strictly as JSON, but performs no shape validation: when an index is
in memory, any output parsing as a JSON value `v` is returned exactly as
`v` (whatever its shape), and only output that is not valid JSON is
rejected with the "Failed to parse character information" marker. -/
theorem c2_parse_without_shape_validation (env : Env) (s : DBState) (name r : String)
    (hdb : s.db ≠ none) (hr : env.run name = .ok r) :
    (∀ v, jsonLoads r = .ok v → getCharacterInfo env s name = (v, s)) ∧
    (jsonLoads r = .error () →
      getCharacterInfo env s name = (mkErrObj "Failed to parse character information", s)) := by
  cases hdbv : s.db with
  | none => exact absurd hdbv hdb
  | some idx =>
    constructor
    · intro v hj
      simp [getCharacterInfo, hdbv, runAndParse, hr, hj]
    · intro hj
      simp [getCharacterInfo, hdbv, runAndParse, hr, hj]

/-- C2 (witness): the amended theorem applied to a provider answering
with the JSON array `[3]`: the array is returned unchanged. -/
theorem c2_witness :
    getCharacterInfo envArr sLoaded "Alice" = (Json.arr [Json.num 3], sLoaded) :=
  (c2_parse_without_shape_validation envArr sLoaded "Alice" "[3]" (by simp [sLoaded])
    rfl).1 (Json.arr [Json.num 3]) rfl

/-- C3: when no index is loaded in memory (`db is None`) and loading the
persisted index fails, `get_character_info` returns the structured
"Failed to load vector database" error result with the state unchanged,
for every behaviour of the retrieval-generation chain — so no retrieval is
performed and nothing propagates to the caller. -/
theorem c3_load_failure_yields_error_result (env : Env) (s : DBState) (name : String)
    (r : String → Except String String)
    (hdb : s.db = none) (hload : (loadVectorDb env s).1 = false) :
    getCharacterInfo { env with run := r } s name =
      (mkErrObj "Error getting character information: Failed to load vector database", s) := by
  cases hf : s.file with
  | none => simp [getCharacterInfo, hdb, loadVectorDb, hf]
  | some stored =>
    have hload2 : env.loadOk = false := by
      by_contra hcon
      rw [Bool.not_eq_false] at hcon
      simp [loadVectorDb, hf, hcon] at hload
    simp [getCharacterInfo, hdb, loadVectorDb, hf, hload2]

/-- C3 (witness): with no persisted file on disk the load fails, and the
orchestrator returns the load-failure error result unchanged. -/
theorem c3_witness :
    getCharacterInfo envBase { db := none, file := none } "Alice" =
      (mkErrObj "Error getting character information: Failed to load vector database",
        { db := none, file := none }) :=
  c3_load_failure_yields_error_result envBase { db := none, file := none } "Alice"
    envBase.run rfl rfl

end StoryExtractor

namespace StoryExtractor

/-- C4 (counterexample): when removing the persisted file fails,
`clear_vector_db` returns `False` and leaves the in-memory index in
place, and an immediately following `similarity_search` succeeds instead
of failing with the not-initialized error — refuting "for every query,
clear_vector_db() followed immediately by similarity_search fails with
NotInitialized". -/
theorem c4_counterexample :
    (clearVectorDb envNoRemove { db := some [entryW], file := some [entryW] }).1 = false ∧
    similaritySearch envNoRemove
        (clearVectorDb envNoRemove { db := some [entryW], file := some [entryW] }).2
        "Alice" 4 = .ok [] :=
  ⟨rfl, rfl⟩

/-- C4 (amended): `similarity_search` fails with the not-initialized
error exactly when no index is in memory (`db is None`); consequently a
`clear_vector_db` that succeeds (returns `True`) followed immediately by
`similarity_search` fails with the not-initialized error — but when the
persisted file's removal raises, `clear` returns `False` without
discarding the in-memory index, and a following search proceeds. -/
theorem c4_not_initialized_iff_no_index (env : Env) (s : DBState) (q : String) (k : Nat) :
    (similaritySearch env s q k = .error .notInitialized ↔ s.db = none) ∧
    ((clearVectorDb env s).1 = true →
      similaritySearch env (clearVectorDb env s).2 q k = .error .notInitialized) := by
  constructor
  · cases hdb : s.db with
    | none => simp [similaritySearch, hdb]
    | some idx =>
      simp only [similaritySearch, hdb]
      cases hs : env.search idx q k with
      | ok docs => simp
      | error m => simp
  · intro hclear
    cases hf : s.file with
    | none => simp [clearVectorDb, hf, similaritySearch]
    | some stored =>
      cases hrm : env.removeOk with
      | false => simp [clearVectorDb, hf, hrm] at hclear
      | true => simp [clearVectorDb, hf, hrm, similaritySearch]

/-- C4 (witness): the amended theorem applied at a state with no
persisted file, where `clear` succeeds. -/
theorem c4_witness :
    similaritySearch envBase (clearVectorDb envBase { db := some [], file := none }).2
      "Alice" 4 = .error .notInitialized :=
  (c4_not_initialized_iff_no_index envBase { db := some [], file := none } "Alice" 4).2 rfl

/-- C5: `clear_vector_db` deletes the persisted index file if present and
discards the in-memory index (whenever the OS-level removal does not
fail, in particular always succeeding and returning `True`); calling it
on a state with no file on disk succeeds with `True` whatever the
environment; it is idempotent — a second call returns the same result and
leaves the same state as the first; and `clean_up` delegates to it,
returning the same boolean. -/
theorem c5_clear_idempotent (env : Env) (s : DBState) :
    (env.removeOk = true → clearVectorDb env s = (true, { db := none, file := none })) ∧
    (s.file = none → clearVectorDb env s = (true, { s with db := none })) ∧
    clearVectorDb env (clearVectorDb env s).2 = clearVectorDb env s ∧
    cleanUp env s = clearVectorDb env s := by
  refine ⟨?_, ?_, ?_, rfl⟩
  · intro hrm
    cases hf : s.file with
    | none =>
      cases s with
      | mk db file => simp_all [clearVectorDb]
    | some stored => simp [clearVectorDb, hf, hrm]
  · intro hf
    simp [clearVectorDb, hf]
  · cases hf : s.file with
    | none =>
      cases s with
      | mk db file => simp_all [clearVectorDb]
    | some stored =>
      cases hrm : env.removeOk with
      | true => simp [clearVectorDb, hf, hrm]
      | false => simp [clearVectorDb, hf, hrm]

/-- C5 (witness): the theorem applied at a state with a persisted file
and a loaded index, in an environment where removal succeeds. -/
theorem c5_witness :
    clearVectorDb envBase { db := some [entryW], file := some [entryW] } =
      (true, { db := none, file := none }) :=
  (c5_clear_idempotent envBase { db := some [entryW], file := some [entryW] }).1 rfl

/-- C6: the index build is all-or-nothing: `create_vector_db` on an empty
document list returns failure with the state untouched, and in every case
the resulting in-memory index is either exactly what it was before the
call or the complete new index — one entry per input document, in order,
each holding a successful embedding of its document — never a partially
populated one. -/
theorem c6_build_all_or_nothing (env : Env) (s : DBState) (documents : List InputDoc) :
    (documents = [] → createVectorDb env s documents = (false, s)) ∧
    ((createVectorDb env s documents).2.db = s.db ∨
      ∃ idx, (createVectorDb env s documents).2.db = some idx ∧
        idx.map Entry.doc = ensureDocuments documents ∧
        ∀ e ∈ idx, env.embed e.doc.text = .ok e.vec) := by
  constructor
  · intro h
    subst h
    rfl
  · cases documents with
    | nil => exact Or.inl rfl
    | cons d ds =>
      cases hfd : faissFromDocuments env.embed (ensureDocuments (d :: ds)) with
      | error e => simp [createVectorDb, hfd]
      | ok idx =>
        obtain ⟨h1, h2⟩ := faissFromDocuments_ok env.embed _ idx hfd
        refine Or.inr ⟨idx, ?_, h1, h2⟩
        cases hsv : env.saveOk with
        | true => simp [createVectorDb, hfd, saveVectorDb, hsv]
        | false => simp [createVectorDb, hfd, saveVectorDb, hsv]

/-- C6 (witness): the theorem applied to the empty chunk list. -/
theorem c6_witness :
    createVectorDb envBase { db := none, file := none } [] =
      (false, { db := none, file := none }) :=
  (c6_build_all_or_nothing envBase { db := none, file := none } []).1 rfl

end StoryExtractor

namespace StoryExtractor

/-- Inserting a file that fails UTF-8 decoding anywhere into the upload
list leaves the surviving document list unchanged. -/
theorem docsOfFiles_skip (pre post : List UFile) (f : UFile) (hf : fileToDoc f = none) :
    docsOfFiles (pre ++ f :: post) = docsOfFiles (pre ++ post) := by
  simp [docsOfFiles, List.filterMap_append, List.filterMap_cons, hf]

/-- C7: `compute_embeddings` skips each file whose bytes fail to decode
as UTF-8 and continues with the rest — inserting an undecodable file
anywhere into a non-empty upload list changes neither the message nor the
resulting state; the decode stage fails only when the input file list is
empty or no file survives decoding, reporting the corresponding
invalid-input error message with the state untouched; and when at least
one file survives, the build proceeds (succeeding whenever
`create_vector_db` does). -/
theorem c7_decode_failures_skipped (env : Env) (s : DBState)
    (files pre post : List UFile) (f : UFile) :
    (fileToDoc f = none → pre ++ post ≠ [] →
      computeEmbeddings env s (pre ++ f :: post) = computeEmbeddings env s (pre ++ post)) ∧
    computeEmbeddings env s [] = ("Error computing embeddings: No files provided", s) ∧
    (files ≠ [] → docsOfFiles files = [] →
      computeEmbeddings env s files =
        ("Error computing embeddings: No valid documents found in provided files", s)) ∧
    (files ≠ [] → docsOfFiles files ≠ [] →
      (createVectorDb env s
          ((splitDocuments 1000 200 '\n' (docsOfFiles files)).map InputDoc.document)).1
        = true →
      computeEmbeddings env s files = ("Embeddings computed and stored successfully",
        (createVectorDb env s
          ((splitDocuments 1000 200 '\n' (docsOfFiles files)).map InputDoc.document)).2)) := by
  refine ⟨?_, rfl, ?_, ?_⟩
  · intro hf hne
    have hdocs := docsOfFiles_skip pre post f hf
    cases pre with
    | nil =>
      cases post with
      | nil => exact absurd rfl hne
      | cons p ps =>
        simp only [List.nil_append] at hdocs ⊢
        simp only [computeEmbeddings]
        rw [hdocs]
    | cons a pre2 =>
      simp only [List.cons_append] at hdocs ⊢
      simp only [computeEmbeddings]
      rw [hdocs]
  · intro hne hd
    cases files with
    | nil => exact absurd rfl hne
    | cons f1 fs =>
      simp only [computeEmbeddings]
      rw [hd]
      rfl
  · intro hne hdne hsucc
    cases files with
    | nil => exact absurd rfl hne
    | cons f1 fs =>
      cases hd : docsOfFiles (f1 :: fs) with
      | nil => exact absurd hd hdne
      | cons d ds =>
        rw [hd] at hsucc
        simp only [computeEmbeddings, buildFromDocs, hd]
        rcases hcv : createVectorDb env s
            ((splitDocuments 1000 200 '\n' (d :: ds)).map InputDoc.document) with ⟨b, s1⟩
        rw [hcv] at hsucc
        simp only at hsucc
        subst hsucc
        rfl

/-- C7 (witness): appending an undecodable file to a one-file upload list
changes nothing. -/
theorem c7_witness :
    computeEmbeddings envBase { db := none, file := none }
        [{ name := "tale.txt", content := .ok "Alice met Bob" },
         { name := "bin.txt", content := .error () }] =
      computeEmbeddings envBase { db := none, file := none }
        [{ name := "tale.txt", content := .ok "Alice met Bob" }] :=
  (c7_decode_failures_skipped envBase { db := none, file := none } []
      [{ name := "tale.txt", content := .ok "Alice met Bob" }] []
      { name := "bin.txt", content := .error () }).1 rfl (by simp)

end StoryExtractor

namespace StoryExtractor

/-- C8 (spec-modelled Chunker): with the build path's parameters —
`chunk_size = 1000`, `chunk_overlap = 200`, separator newline, exactly as
`compute_embeddings` invokes the splitter — every produced chunk's length
is at most `chunk_size`, except when the chunk is a single
separator-delimited unit of its source document longer than `chunk_size`,
kept whole as one oversized chunk. -/
theorem c8_chunk_size_bound (docs : List Doc) (c : Doc)
    (hc : c ∈ splitDocuments 1000 200 '\n' docs) :
    c.text.length ≤ 1000 ∨
      (1000 < c.text.length ∧ ∃ d ∈ docs, c.text ∈ textUnits '\n' d.text) := by
  rcases List.mem_flatMap.mp hc with ⟨d, hd, hcd⟩
  rcases List.mem_map.mp hcd with ⟨t, ht, rfl⟩
  have hb := chunkUnits_bound 1000 200 (String.mk ['\n']) (by norm_num)
    (textUnits '\n' d.text) "" (by simp) t ht
  rcases hb with h | ⟨hm, hl⟩
  · exact Or.inl h
  · exact Or.inr ⟨hl, d, hd, hm⟩

/-- C8 (witness): a document shorter than the chunk size becomes a single
chunk within the bound. -/
theorem c8_witness :
    (Doc.mk "hello" none).text.length ≤ 1000 ∨
      (1000 < (Doc.mk "hello" none).text.length ∧
        ∃ d ∈ [Doc.mk "hello" none], (Doc.mk "hello" none).text ∈ textUnits '\n' d.text) :=
  c8_chunk_size_bound [Doc.mk "hello" none] (Doc.mk "hello" none) (by decide)

/-- C9 (counterexample): for the upload named `"a.txtb.txt"`, the code's
title (`name.replace(".txt", "")`) is `"ab"`, while the filename minus its
trailing extension is `"a.txtb"` — refuting "the title equals the file's
name with the trailing `.txt` extension removed, and the rest of the name
is unchanged". -/
theorem c9_counterexample :
    fileToDoc { name := "a.txtb.txt", content := .ok "story text" } =
      some { text := "story text", title := some "ab" } ∧
    stripTrailingTxt ("a.txtb.txt".data) = "a.txtb".data ∧
    ("ab" : String) ≠ "a.txtb" :=
  ⟨rfl, by decide, by decide⟩

/-- C9 (amended): the title equals the filename with every occurrence of
`".txt"` removed (Python's `str.replace` replaces all occurrences); when
`".txt"` occurs in the name only as the trailing extension, this
coincides with the claim — the extension is removed and the rest of the
name is unchanged. -/
theorem c9_title_strips_every_txt_occurrence (base : List Char) (text : String)
    (h : containsTxt base = false) :
    fileToDoc { name := String.mk (base ++ txtPat), content := .ok text } =
      some { text := text, title := some (String.mk base) } := by
  simp only [fileToDoc]
  rw [stripTxtAll_append_txtPat base h]

/-- C9 (witness): the amended theorem applied to the filename
`"story.txt"`. -/
theorem c9_witness :
    fileToDoc { name := String.mk ("story".data ++ txtPat), content := .ok "Alice" } =
      some { text := "Alice", title := some (String.mk "story".data) } :=
  c9_title_strips_every_txt_occurrence "story".data "Alice" (by decide)

/-- C10: `create_vector_db` returns `True` exactly when the documents are
non-empty, the FAISS build (all embeddings) succeeds, and the persist to
disk succeeds; and when the build succeeds but the persist fails, it
returns `False` even though the newly built index has already replaced
the prior in-memory index (only the persisted file is unchanged) — so a
`False` return does not imply the in-memory state is unchanged. -/
theorem c10_create_true_iff_build_and_persist (env : Env) (s : DBState)
    (documents : List InputDoc) :
    ((createVectorDb env s documents).1 = true ↔
      documents ≠ [] ∧ env.saveOk = true ∧
        ∃ idx, faissFromDocuments env.embed (ensureDocuments documents) = .ok idx) ∧
    (∀ idx, documents ≠ [] →
      faissFromDocuments env.embed (ensureDocuments documents) = .ok idx →
      env.saveOk = false →
      createVectorDb env s documents = (false, { db := some idx, file := s.file })) := by
  constructor
  · cases documents with
    | nil => simp [createVectorDb]
    | cons d ds =>
      cases hfd : faissFromDocuments env.embed (ensureDocuments (d :: ds)) with
      | error e => simp [createVectorDb, hfd]
      | ok idx =>
        cases hsv : env.saveOk with
        | true => simp [createVectorDb, hfd, saveVectorDb, hsv]
        | false => simp [createVectorDb, hfd, saveVectorDb, hsv]
  · intro idx hne hfd hsv
    cases documents with
    | nil => exact absurd rfl hne
    | cons d ds =>
      simp only [createVectorDb, hfd, saveVectorDb, hsv]
      rfl

/-- C10 (witness): the theorem applied where the embedding succeeds but
the persist fails: the call returns `False` with the in-memory index
replaced and the persisted file untouched. -/
theorem c10_witness :
    createVectorDb envNoSave { db := none, file := some [] }
        [InputDoc.document aliceDoc] =
      (false, { db := some [aliceEntry], file := some [] }) :=
  (c10_create_true_iff_build_and_persist envNoSave { db := none, file := some [] }
      [InputDoc.document aliceDoc]).2 [aliceEntry] (by simp) rfl rfl

end StoryExtractor
